/-
Verification of the tap-btg statement-normalization engine
(src/tap_btg/streams.py) against its natural-language specification.

The Python code is shallowly embedded: pandas column operations become
functions on lists of rows, string methods become functions on String,
raised exceptions become Except, and NaN cells become Option. Monetary
values are rationals; the decimal fragment of float / pd.to_numeric
parsing that the statements exercise is modelled on exactly that
fragment (sign, digits, one decimal point), anything outside it being a
parse failure, as in Python.
-/

import Mathlib

namespace TapBtg

instance {ε α : Type} [DecidableEq ε] [DecidableEq α] : DecidableEq (Except ε α)
  | .error a, .error b =>
      decidable_of_iff (a = b) ⟨congrArg Except.error, fun h => by cases h; rfl⟩
  | .error _, .ok _ => isFalse (fun h => by cases h)
  | .ok _, .error _ => isFalse (fun h => by cases h)
  | .ok a, .ok b =>
      decidable_of_iff (a = b) ⟨congrArg Except.ok, fun h => by cases h; rfl⟩

/-! ## String utilities (models of the Python string methods used) -/

/-- Python `s.lstrip(chars)`: remove the longest leading run of
characters belonging to the set `chars` (Python str.lstrip takes a
character SET, not a prefix string). -/
def lstripChars (s : String) (chars : List Char) : String :=
  ⟨s.toList.dropWhile (fun c => chars.contains c)⟩

/-- Python `s.startswith(p)`. -/
def strStartsWith (s p : String) : Bool :=
  p.toList.isPrefixOf s.toList

/-- Python `s.endswith(p)`. -/
def strEndsWith (s p : String) : Bool :=
  p.toList.isSuffixOf s.toList

/-- Python `pat in s` / `Series.str.contains(pat, regex=False)`. -/
def containsSub (s pat : String) : Bool :=
  (s.toList.tails).any (fun t => pat.toList.isPrefixOf t)

/-- Python `s.replace(old, new)` for a one-character `old` (the only
form used: `.replace(".", "")` and `.replace(",", ".")`). -/
def replaceChar (s : String) (old : Char) (new : String) : String :=
  ⟨(s.toList.map (fun c => if c = old then new.toList else [c])).flatten⟩

/-- Python `s[-3:]`: the last (at most) three characters. -/
def lastThree (s : String) : String :=
  ⟨(s.toList.reverse.take 3).reverse⟩

/-- Python `s.split(sep)` for a one-character separator. -/
def splitOnChar (sep : Char) : List Char → List (List Char)
  | [] => [[]]
  | c :: rest =>
      let r := splitOnChar sep rest
      if c = sep then [] :: r
      else
        match r with
        | h :: t => (c :: h) :: t
        | [] => [[c]]

/-- Python `sep.join(parts)` for a one-character separator. -/
def joinWithChar (sep : Char) : List (List Char) → List Char
  | [] => []
  | [l] => l
  | l :: rest => l ++ sep :: joinWithChar sep rest

/-- ASCII lower-casing, as the case normalization dateparser applies. -/
def charLower (c : Char) : Char :=
  if 'A' ≤ c ∧ c ≤ 'Z' then Char.ofNat (c.toNat + 32) else c

/-- Python `s.lower()` (ASCII fragment). -/
def strLower (s : String) : String :=
  ⟨s.toList.map charLower⟩

/-! ## Decimal parsing

The strings fed to `float()` / `pd.to_numeric` by this pipeline are an
optional sign followed by digits with an optional decimal point. A
parse is returned as (negative?, mantissa digits as a number, number of
fractional digits) so that everything up to the final rational value is
computable by kernel reduction; `decValue` interprets the triple. -/

/-- Numeric value of a digit run. -/
def digitsVal (l : List Char) : Nat :=
  l.foldl (fun a c => 10 * a + (c.toNat - 48)) 0

/-- Parse `digits [ '.' digits ]` (at least one digit overall, as
`float()` accepts: "12", "12.3", "12.", ".5"). -/
def parseUnsignedParts (cs : List Char) : Option (Nat × Nat) :=
  let intPart := cs.takeWhile Char.isDigit
  let rest := cs.dropWhile Char.isDigit
  match rest with
  | [] => if intPart.isEmpty then none else some (digitsVal intPart, 0)
  | '.' :: frac =>
      if frac.all Char.isDigit ∧ ¬(intPart.isEmpty ∧ frac.isEmpty) then
        some (digitsVal (intPart ++ frac), frac.length)
      else none
  | _ => none

/-- Parse an optionally signed decimal string into parts. -/
def parseDecimalParts (s : String) : Option (Bool × Nat × Nat) :=
  match s.toList with
  | '-' :: cs => (parseUnsignedParts cs).map (fun p => (true, p))
  | '+' :: cs => (parseUnsignedParts cs).map (fun p => (false, p))
  | cs => (parseUnsignedParts cs).map (fun p => (false, p))

/-- The rational value of a parsed decimal. -/
def decValue (p : Bool × Nat × Nat) : ℚ :=
  (if p.1 then -1 else 1) * (p.2.1 : ℚ) / 10 ^ p.2.2

/-- Signed decimal string to rational (`none` = Python raises). -/
def parseDecimal (s : String) : Option ℚ :=
  (parseDecimalParts s).map decValue

/-! ## Calendar dates

Dates are (year, month, day); `addMonths` is `pd.DateOffset(months=k)`:
shift the month, clamping the day to the length of the target month. -/

structure Date where
  year : ℤ
  month : ℕ
  day : ℕ
deriving DecidableEq

/-- Gregorian leap year. -/
def isLeap (y : ℤ) : Bool :=
  y % 4 = 0 ∧ (y % 100 ≠ 0 ∨ y % 400 = 0)

/-- Number of days in a month. -/
def daysInMonth (y : ℤ) (m : ℕ) : ℕ :=
  if m = 2 then (if isLeap y then 29 else 28)
  else if m = 4 ∨ m = 6 ∨ m = 9 ∨ m = 11 then 30
  else 31

/-- `date + pd.DateOffset(months=k)`: calendar-month shift with
end-of-month day clamping. -/
def addMonths (dt : Date) (k : ℤ) : Date :=
  let t : ℤ := dt.year * 12 + ((dt.month : ℤ) - 1) + k
  let y := t / 12
  let m := (t % 12).toNat + 1
  ⟨y, m, min dt.day (daysInMonth y m)⟩

/-! ## Credit-card stream: row-level functions
(CreditTransactionsStream.get_records, streams.py lines 194 to 337) -/

/-- The np.where sign step (lines 266 to 270): a "-"-prefixed amount has
every leading character in the set `{'-', ' ', 'R', '$'}` stripped; any
other amount gets "-" prepended after stripping leading
`{'R', '$', ' '}`. -/
def creditAmountSignStep (s : String) : String :=
  if strStartsWith s "-" then lstripChars s ['-', ' ', 'R', '$']
  else "-" ++ lstripChars s ['R', '$', ' ']

/-- Lines 266 to 277 on one cell, up to the final numeric interpretation:
sign step, then `.replace(".", "")`, then `.replace(",", ".")`, then
`pd.to_numeric` (`none` = parse failure, which raises). -/
def creditAmountParts (s : String) : Option (Bool × Nat × Nat) :=
  parseDecimalParts (replaceChar (replaceChar (creditAmountSignStep s) '.' "") ',' ".")

/-- The normalized rational amount of one credit-card amount cell. -/
def creditAmountToNumeric (s : String) : Option ℚ :=
  (creditAmountParts s).map decValue

/-- Portuguese month abbreviations as resolved by
`dateparser.parse(x, date_formats=["%b"], languages=["pt"])`
(case-insensitive); `none` models dateparser returning None. -/
def ptMonthNum (s : String) : Option ℕ :=
  match strLower s with
  | "jan" => some 1 | "fev" => some 2 | "mar" => some 3 | "abr" => some 4
  | "mai" => some 5 | "jun" => some 6 | "jul" => some 7 | "ago" => some 8
  | "set" => some 9 | "out" => some 10 | "nov" => some 11 | "dez" => some 12
  | _ => none

/-- `_get_transaction_year` (lines 279 to 287): the last three characters
of the date cell are parsed as a month; the year is the billing year,
minus one when `file_month - month < 0`. A NaN date cell raises
(`NaN[-3:]` is a TypeError) and an unparsable month raises
(`None.month` is an AttributeError). -/
def getTransactionYear (fileYear fileMonth : ℤ) (dateCell : Option String) :
    Except String ℤ :=
  match dateCell with
  | none => .error "TypeError"
  | some d =>
      match ptMonthNum (lastThree d) with
      | none => .error "AttributeError"
      | some m => .ok (if fileMonth - (m : ℤ) < 0 then fileYear - 1 else fileYear)

/-- `_create_transaction_date` (lines 293 to 298): the date cell plus the
inferred year, parsed with format `%d %^b %Y` in Portuguese. Modelled on
the strict format path: two digits, one space, a three-letter month
abbreviation; an invalid shape or an out-of-range day gives None (NaT). -/
def createTransactionDate (d : String) (year : ℤ) : Option Date :=
  match d.toList with
  | [d1, d2, ' ', m1, m2, m3] =>
      if d1.isDigit ∧ d2.isDigit then
        match ptMonthNum ⟨[m1, m2, m3]⟩ with
        | some m =>
            let day := digitsVal [d1, d2]
            if 1 ≤ day ∧ day ≤ daysInMonth year m then some ⟨year, m, day⟩
            else none
        | none => none
      else none
  | _ => none

/-- First match of the regex `\(([0-9])\/([0-9])\)` in a description:
re.search semantics, scanning left to right, returning the two captured
digits, as used by the two `.str.extract` calls of lines 306 to 317. -/
def findInst : List Char → Option (ℕ × ℕ)
  | [] => none
  | c :: rest =>
      match c, rest with
      | '(', a :: '/' :: b :: ')' :: _ =>
          if a.isDigit ∧ b.isDigit then some (a.toNat - 48, b.toNat - 48)
          else findInst rest
      | _, _ => findInst rest

/-- Lines 306 to 324: `installment_number` and `installment_total`
(each `fillna("0")`, so 0 when the pattern is absent; `.str.extract` on a
NaN description is NaN, so also 0); the date is shifted by
`installment_number - 1` months when `installment_total != 0`, and a
row with a shift but a NaT/None date raises a TypeError. -/
def adjustForInstallment (desc : Option String) (dt : Option Date) :
    Except String (Option Date) :=
  let inst := desc.bind (fun s => findInst s.toList)
  let n : ℕ := (inst.map Prod.fst).getD 0
  let tot : ℕ := (inst.map Prod.snd).getD 0
  if tot ≠ 0 then
    match dt with
    | none => .error "TypeError"
    | some d => .ok (some (addMonths d ((n : ℤ) - 1)))
  else .ok dt

/-- `extract_file_name` (lines 182 to 192): the last path component with
the text after its last dot removed (both the S3 `rsplit(".", 1)[0]`
branch and the local `os.path.splitext` branch reduce to this on the
names that occur). -/
def extractFileName (path : String) : String :=
  let base := (splitOnChar '/' path.toList).getLastD []
  let parts := splitOnChar '.' base
  if parts.length ≤ 1 then ⟨base⟩ else ⟨joinWithChar '.' parts.dropLast⟩

/-- First match of the regex `(\d{4})-(\d{2})` (lines 221 to 228):
scan left to right for four digits, a dash, and two digits; `none`
models `re.findall(...)[0]` raising IndexError. -/
def findYearMonth : List Char → Option (ℕ × ℕ)
  | [] => none
  | c :: rest =>
      match c, rest with
      | a, b :: c2 :: d :: '-' :: e :: f :: _ =>
          if a.isDigit ∧ b.isDigit ∧ c2.isDigit ∧ d.isDigit ∧ e.isDigit ∧ f.isDigit then
            some (digitsVal [a, b, c2, d], digitsVal [e, f])
          else findYearMonth rest
      | _, _ => findYearMonth rest

/-! ## Credit-card stream: the raw grid and the stacked frame

A raw tabula row is read through columns 0 to 5 (columns past 5 are
never referenced). After stacking, `btg_credit` is a frame of
(date, description, amount) cells carrying its integer index labels,
on which the US$ loop operates with `.loc` / `.drop` label semantics. -/

structure RawRow where
  c0 : Option String
  c1 : Option String
  c2 : Option String
  c3 : Option String
  c4 : Option String
  c5 : Option String
deriving DecidableEq

structure CRow where
  date : Option String
  description : Option String
  amount : Option String
deriving DecidableEq

/-- `^[0-9]{2}\s[a-zA-Z]{3}` with `na=False` (conditions 1 and 2). -/
def matchesDayMon (cell : Option String) : Bool :=
  match cell with
  | none => false
  | some s =>
      match s.toList with
      | d1 :: d2 :: w :: a :: b :: c :: _ =>
          d1.isDigit ∧ d2.isDigit ∧ (w = ' ' ∨ w = '\t' ∨ w = '\n' ∨ w = '\r') ∧
            a.isAlpha ∧ b.isAlpha ∧ c.isAlpha
      | _ => false

/-- `Cotação|Conversão` containment with `na=False` (conditions 3 and 4). -/
def containsConv (cell : Option String) : Bool :=
  match cell with
  | none => false
  | some s => containsSub s "Cotação" || containsSub s "Conversão"

/-- Lines 232 to 247: a raw row survives when any of the four conditions
holds. -/
def rowSelected (r : RawRow) : Bool :=
  matchesDayMon r.c0 || matchesDayMon r.c3 || containsConv r.c1 || containsConv r.c4

/-- Left logical half of a raw row (columns 0 to 2). -/
def leftHalf (r : RawRow) : CRow := ⟨r.c0, r.c1, r.c2⟩

/-- Right logical half of a raw row (columns 3 to 5). -/
def rightHalf (r : RawRow) : CRow := ⟨r.c3, r.c4, r.c5⟩

/-- Lines 248 to 254: `np.concatenate` stacks ALL left halves first,
then all right halves, into one frame with fresh 0-based labels. -/
def stackHalves (rs : List RawRow) : List CRow :=
  rs.map leftHalf ++ rs.map rightHalf

/-- A labeled frame: rows carrying their pandas integer index labels. -/
abbrev LFrame : Type := List (ℕ × CRow)

/-- `dropna(how="all")` (line 255): drop rows whose three cells are all
NaN; labels are kept. -/
def dropnaAll (df : LFrame) : LFrame :=
  df.filter (fun p => ¬(p.2.date = none ∧ p.2.description = none ∧ p.2.amount = none))

/-- Does the amount cell contain the literal `US$`? (NaN is not a
match, but see `usdRepair`: a NaN in the mask makes `.loc` raise.) -/
def amountHasUSD (r : CRow) : Bool :=
  match r.amount with
  | none => false
  | some s => containsSub s "US$"

/-- Is the label `i` present in the frame? -/
def labelMem : LFrame → ℕ → Bool
  | [], _ => false
  | p :: df, i => p.1 = i || labelMem df i

/-- `df.loc[i]`: the first row stored at label `i`. -/
def locGetRow : LFrame → ℕ → Option CRow
  | [], _ => none
  | p :: df, i => if p.1 = i then some p.2 else locGetRow df i

/-- `df.loc[i, "amount"] = v`: overwrite the amount of every row at
label `i`; on a missing label pandas enlarges, appending a row with the
other cells NaN. -/
def locSetAmount (df : LFrame) (i : ℕ) (v : Option String) : LFrame :=
  if labelMem df i then
    df.map (fun p => if p.1 = i then (p.1, { p.2 with amount := v }) else p)
  else df ++ [(i, ⟨none, none, v⟩)]

/-- Removal of all rows stored at the given labels. -/
def removeLabels (df : LFrame) (ls : List ℕ) : LFrame :=
  df.filter (fun p => ¬ p.1 ∈ ls)

/-- `df.drop(ls)`: remove the given labels, raising KeyError when any
of them is absent. -/
def dropLabels (df : LFrame) (ls : List ℕ) : Except String LFrame :=
  if ls.all (fun l => labelMem df l) then .ok (removeLabels df ls)
  else .error "KeyError"

/-- One iteration of the US$ loop (lines 260 to 262) at label `i`:
read the amount at label `i + 2` (KeyError when absent), write it at
label `i`, drop labels `i + 1` and `i + 2`. -/
def usdStep (df : LFrame) (i : ℕ) : Except String LFrame :=
  match locGetRow df (i + 2) with
  | none => .error "KeyError"
  | some r2 => dropLabels (locSetAmount df i r2.amount) [i + 1, i + 2]

/-- The labels of the rows whose amount contains `US$`, computed once
up front (line 257). -/
def usdLabels (df : LFrame) : List ℕ :=
  (df.filter (fun p => amountHasUSD p.2)).map Prod.fst

/-- Lines 257 to 262: boolean masking with `.str.contains` produces NaN
for NaN amounts and `.loc` then raises; otherwise the loop runs over the
matching labels in frame order. -/
def usdRepair (df : LFrame) : Except String LFrame :=
  if df.any (fun p => p.2.amount.isNone) then .error "ValueError"
  else (usdLabels df).foldlM usdStep df

/-! ## Credit-card stream: the full per-file pipeline -/

/-- A stacked row after `pd.to_numeric` on the amount column. -/
structure CRowN where
  date : Option String
  description : Option String
  amount : Option ℚ
deriving DecidableEq

/-- A row after `transaction_year` has been attached. -/
structure CRowY where
  date : Option String
  description : Option String
  amount : Option ℚ
  transactionYear : ℤ
deriving DecidableEq

/-- A row once the date column holds assembled dates. -/
structure CRowD where
  date : Option Date
  description : Option String
  amount : Option ℚ
deriving DecidableEq

/-- An output record of the credit-card stream. -/
structure CreditRecord where
  date : Option Date
  description : Option String
  amount : Option ℚ
  billMonth : Date
deriving DecidableEq

/-- Lines 266 to 277 over the frame: NaN amounts stay NaN, anything
else must parse after sign and separator normalization or
`pd.to_numeric` raises. -/
def normalizeAmounts (rows : List CRow) : Except String (List CRowN) :=
  rows.mapM (fun r =>
    match r.amount with
    | none => .ok ⟨r.date, r.description, none⟩
    | some s =>
        match creditAmountParts s with
        | some p => .ok ⟨r.date, r.description, some (decValue p)⟩
        | none => .error "ValueError")

/-- Lines 289 to 291: `_get_transaction_year` applied to every row. -/
def attachYears (fileYear fileMonth : ℤ) (rows : List CRowN) :
    Except String (List CRowY) :=
  rows.mapM (fun r =>
    (getTransactionYear fileYear fileMonth r.date).map
      (fun y => ⟨r.date, r.description, r.amount, y⟩))

/-- Lines 300 to 302: `_create_transaction_date` applied to every row
(a NaN date cell would raise inside the string concatenation). -/
def assembleDates (rows : List CRowY) : Except String (List CRowD) :=
  rows.mapM (fun r =>
    match r.date with
    | none => .error "TypeError"
    | some d => .ok ⟨createTransactionDate d r.transactionYear, r.description, r.amount⟩)

/-- Lines 306 to 326: installment adjustment applied to every row. -/
def applyInstallments (rows : List CRowD) : Except String (List CRowD) :=
  rows.mapM (fun r =>
    (adjustForInstallment r.description r.date).map
      (fun d => ⟨d, r.description, r.amount⟩))

/-- One credit-card statement file: its path and the tables returned by
the (external) tabula extraction. -/
structure CreditFile where
  path : String
  tables : List (List RawRow)

/-- `CreditTransactionsStream.get_records`, one `.pdf` file body
(lines 221 to 337): filename year and month, `pd.concat` of all tables
but the first (raising when there is nothing to concatenate), row
selection, stacking, `dropna`, US$ repair, `reset_index`, amount
normalization, year inference, date assembly, installment shift, the
`head(1)` drop, and the `bill_month` column (whose `pd.to_datetime`
requires a real month). -/
def processCreditPdf (f : CreditFile) : Except String (List CreditRecord) := do
  match findYearMonth (extractFileName f.path).toList with
  | none => .error "IndexError"
  | some (fileYear, fileMonth) =>
      if (f.tables.drop 1).isEmpty then .error "ValueError" else do
      let raw := (f.tables.drop 1).flatten
      let stacked := stackHalves (raw.filter rowSelected)
      let df := dropnaAll stacked.enum
      let df ← usdRepair df
      let rows := df.map Prod.snd
      let rows ← normalizeAmounts rows
      let rows ← attachYears (fileYear : ℤ) (fileMonth : ℤ) rows
      let rows ← assembleDates rows
      let rows ← applyInstallments rows
      let rows := rows.drop 1
      if 1 ≤ fileMonth ∧ fileMonth ≤ 12 then
        .ok (rows.map (fun r =>
          ⟨r.date, r.description, r.amount, ⟨(fileYear : ℤ), fileMonth, 1⟩⟩))
      else .error "ValueError"

/-- The per-file body of the loop at lines 209 to 337: files not ending
in `.pdf` are silently skipped. -/
def processCreditFile (f : CreditFile) : Except String (List CreditRecord) :=
  if strEndsWith f.path ".pdf" then processCreditPdf f else .ok []

/-- Generator semantics of a `get_records` loop over files: records of
each file are yielded in order until the first exception, which aborts
the whole generator. -/
def runFiles (f : α → Except String (List ρ)) : List α → List ρ × Option String
  | [] => ([], none)
  | x :: xs =>
      match f x with
      | .error e => ([], some e)
      | .ok rs =>
          let (rest, e) := runFiles f xs
          (rs ++ rest, e)

/-- `CreditTransactionsStream.get_records` (lines 205 to 337): a missing
or empty `file_password` logs an error and yields nothing; otherwise the
files are processed in order with generator semantics. -/
def creditGetRecords (password : Option String) (files : List CreditFile) :
    List CreditRecord × Option String :=
  match password with
  | none => ([], none)
  | some p => if p = "" then ([], none) else runFiles processCreditFile files

/-! ## Investments stream: the sign and amount of one retained row
(InvestmentsTransactionsStream.get_records, streams.py lines 100 to 116)

Only the Débito and Crédito cells of a row take part in the sign and
amount computation; the surrounding header/footer drops select which
rows are retained and are orthogonal to these claims. -/

structure InvRow where
  debito : Option String
  credito : Option String
deriving DecidableEq

/-- Line 100 to 102: `np.where(Débito.isnull(), 1, -1)`. -/
def invSign (r : InvRow) : ℤ :=
  if r.debito = none then 1 else -1

/-- Lines 104 to 109: `bfill(axis=1)` over [Débito, Crédito] then the
first column: Débito when present, else Crédito. -/
def invBfill (r : InvRow) : Option String :=
  match r.debito with
  | some s => some s
  | none => r.credito

/-- `astype(str)`: a NaN cell prints as the string "nan". -/
def astypeStr (o : Option String) : String :=
  o.getD "nan"

/-- Lines 110 to 113 applied to the bfilled cell: `.replace(".", "")`
then `.replace(",", ".")`. -/
def invValorStr (r : InvRow) : String :=
  replaceChar (replaceChar (astypeStr (invBfill r)) '.' "") ',' "."

/-- `astype(float)` on one cell string: the string "nan" becomes NaN
(no exception), a decimal literal parses, anything else raises
ValueError. -/
def pyFloat (s : String) : Except String (Option (Bool × Nat × Nat)) :=
  if s = "nan" then .ok none
  else
    match parseDecimalParts s with
    | some p => .ok (some p)
    | none => .error "ValueError"

/-- Lines 100 to 116 for one row: `Sign * astype(float)(Valor)`, where
multiplication with NaN is NaN. -/
def invAmount (r : InvRow) : Except String (Option ℚ) :=
  (pyFloat (invValorStr r)).map (Option.map (fun p => (invSign r : ℚ) * decValue p))

/-! ## Banking stream
(BankingTransactionsStream.get_records, streams.py lines 381 to 426)

A pyexcel record row is read through its five selected columns
(`Data e hora`, `Categoria`, `Transação`, `Descrição`, `Valor`); empty
spreadsheet cells arrive as the empty string, which line 404 turns into
NaN. -/

structure BRow where
  dataHora : String
  categoria : String
  transacao : String
  descricao : String
  valor : String
deriving DecidableEq

/-- An output record of the banking stream: the date parsed day-first,
the synthesized description (NaN when a component is NaN), and the
amount cell verbatim. -/
structure BankRecord where
  date : Option Date
  description : Option String
  amount : Option String
deriving DecidableEq

/-- Line 404: `replace("", np.nan)` on one cell. -/
def emptyToNone (s : String) : Option String :=
  if s = "" then none else some s

/-- A banking row after line 404: empty cells are NaN. -/
structure BRowN where
  dataHora : Option String
  categoria : Option String
  transacao : Option String
  descricao : Option String
  valor : Option String
deriving DecidableEq

/-- Line 404 over a whole row. -/
def bankReplaceEmpty (r : BRow) : BRowN :=
  ⟨emptyToNone r.dataHora, emptyToNone r.categoria, emptyToNone r.transacao,
   emptyToNone r.descricao, emptyToNone r.valor⟩

/-- `pd.to_datetime(x, dayfirst=True)` on one cell: NaN gives NaT,
`DD/MM/YYYY` (day first) parses, anything else raises. -/
def parseDayFirst (cell : Option String) : Except String (Option Date) :=
  match cell with
  | none => .ok none
  | some s =>
      match splitOnChar '/' s.toList with
      | [ds, ms, ys] =>
          if ds.all Char.isDigit ∧ ¬ds.isEmpty ∧
              ms.all Char.isDigit ∧ ¬ms.isEmpty ∧
              ys.all Char.isDigit ∧ ys.length = 4 then
            let d := digitsVal ds
            let m := digitsVal ms
            let y : ℤ := (digitsVal ys : ℤ)
            if 1 ≤ m ∧ m ≤ 12 ∧ 1 ≤ d ∧ d ≤ daysInMonth y m then
              .ok (some ⟨y, m, d⟩)
            else .error "ParserError"
          else .error "ParserError"
      | _ => .error "ParserError"

/-- Lines 413 to 419: `Categoria + " - " + Transação + " - " + Descrição`,
NaN when any component is NaN. -/
def bankDescription (cat tr desc : Option String) : Option String :=
  match cat, tr, desc with
  | some a, some b, some c => some (a ++ " - " ++ b ++ " - " ++ c)
  | _, _, _ => none

/-- Lines 399 to 426 for one sheet: empty cells to NaN, drop rows with
NaN Valor, drop rows whose `Data e hora` cell repeats the header label,
parse dates day-first, synthesize descriptions, keep amounts verbatim. -/
def processBankingSheet (sheet : List BRow) : Except String (List BankRecord) := do
  let rows := sheet.map bankReplaceEmpty
  let rows := rows.filter (fun r => ¬ r.valor = none)
  let rows := rows.filter (fun r => ¬ r.dataHora = some "Data e hora")
  rows.mapM (fun r => do
    let d ← parseDayFirst r.dataHora
    .ok ⟨d, bankDescription r.categoria r.transacao r.descricao, r.valor⟩)

/-- One banking statement file: its path and the extracted sheet. -/
structure BankingFile where
  path : String
  sheet : List BRow

/-- The per-file body of the loop at lines 392 to 426: files not ending
in `.xls` are silently skipped. -/
def processBankingFile (f : BankingFile) : Except String (List BankRecord) :=
  if strEndsWith f.path ".xls" then processBankingSheet f.sheet else .ok []

/-- `BankingTransactionsStream.get_records` over its files. -/
def bankingGetRecords (files : List BankingFile) :
    List BankRecord × Option String :=
  runFiles processBankingFile files

/-! ## Concrete example inputs used by several theorems -/

/-- The claim C2 example triplet: a US$ quote row, the rate row, and
the converted-value row, as a labeled stacked frame. -/
def exTriplet : LFrame :=
  [(0, ⟨some "05 jan", some "Shop", some "US$ 50.00"⟩),
   (1, ⟨none, some "Cotação do Dólar", some "R$ 5,00"⟩),
   (2, ⟨none, some "Conversão", some "R$ 250,00"⟩)]

/-- A well-formed credit-card statement file: billing period 2024-03 in
the filename, one summary table (discarded) and one transaction table
whose first surviving row is the header artifact removed by the
`head(1)` drop. -/
def exGoodCredit : CreditFile :=
  { path := "statements/credit 2024-03.pdf",
    tables := [[], [⟨some "01 jan", some "Pagamento", some "R$ 1,00", none, none, none⟩,
                    ⟨some "10 fev", some "Store", some "R$ 10,00", none, none, none⟩]] }

/-- A credit-card file whose name carries no `YYYY-MM` pattern. -/
def exBadCredit : CreditFile :=
  { path := "statements/credit.pdf", tables := [[], []] }

/-! ## Claim theorems -/

/-- Claim C1, counterexample: the code maps `"-R$ 12,30"` to `+12.30`,
not to the `-12.30` the claim states, because Python `lstrip("- R$")`
strips a character set that includes the minus sign itself. -/
theorem c1_counterexample :
    creditAmountToNumeric "-R$ 12,30" = some (123 / 10 : ℚ) ∧
    ¬ creditAmountToNumeric "-R$ 12,30" = some (-(123 / 10) : ℚ) := by
  have h : creditAmountToNumeric "-R$ 12,30" = some (decValue (false, 1230, 2)) := rfl
  constructor
  · rw [h]
    norm_num [decValue]
  · rw [h]
    intro hc
    have hv := Option.some.inj hc
    norm_num [decValue] at hv

/-- Claim C1 (amended): a `"-"`-prefixed amount has every leading
character in the set `{'-', ' ', 'R', '$'}` stripped, so it parses to a
positive value with the sign dropped; an unprefixed amount gets `"-"`
prepended after stripping leading `{'R', '$', ' '}`; `"."` is removed
and `","` becomes `"."`; hence `"1.234,56"` parses to `-1234.56`,
`"R$ 12,30"` to `-12.30`, and `"-R$ 12,30"` to `+12.30`. -/
theorem c1_amended_theorem :
    (∀ s : String, strStartsWith s "-" = true →
        creditAmountSignStep s = lstripChars s ['-', ' ', 'R', '$']) ∧
    (∀ s : String, strStartsWith s "-" = false →
        creditAmountSignStep s = "-" ++ lstripChars s ['R', '$', ' ']) ∧
    creditAmountToNumeric "1.234,56" = some (-(123456 / 100) : ℚ) ∧
    creditAmountToNumeric "R$ 12,30" = some (-(123 / 10) : ℚ) ∧
    creditAmountToNumeric "-R$ 12,30" = some (123 / 10 : ℚ) := by
  refine ⟨fun s h => by simp [creditAmountSignStep, h],
    fun s h => by simp [creditAmountSignStep, h], ?_, ?_, ?_⟩
  · have h : creditAmountToNumeric "1.234,56" = some (decValue (true, 123456, 2)) := rfl
    rw [h]
    norm_num [decValue]
  · have h : creditAmountToNumeric "R$ 12,30" = some (decValue (true, 1230, 2)) := rfl
    rw [h]
    norm_num [decValue]
  · have h : creditAmountToNumeric "-R$ 12,30" = some (decValue (false, 1230, 2)) := rfl
    rw [h]
    norm_num [decValue]

/-- Claim C1 witness: the amended theorem applied to `"-R$ 12,30"`. -/
theorem c1_witness :
    creditAmountSignStep "-R$ 12,30" = lstripChars "-R$ 12,30" ['-', ' ', 'R', '$'] :=
  c1_amended_theorem.1 "-R$ 12,30" (by decide)

/-- Claim C3: the transaction year is the billing year from the
filename, unless the month parsed from the last three characters of the
date cell is numerically greater than the billing month, in which case
it is the billing year minus one; billing (2024, 03) with `"dez"` gives
2023 and with `"fev"` gives 2024. -/
theorem c3_theorem :
    (∀ (fy fm : ℤ) (d : String) (m : ℕ), ptMonthNum (lastThree d) = some m →
        getTransactionYear fy fm (some d) =
          .ok (if (m : ℤ) > fm then fy - 1 else fy)) ∧
    getTransactionYear 2024 3 (some "05 dez") = .ok 2023 ∧
    getTransactionYear 2024 3 (some "05 fev") = .ok 2024 := by
  refine ⟨?_, by decide, by decide⟩
  intro fy fm d m h
  simp only [getTransactionYear, h, gt_iff_lt, sub_neg]

/-- Claim C3 witness: the theorem applied to billing (2024, 03) and the
date cell `"05 dez"`. -/
theorem c3_witness :
    getTransactionYear 2024 3 (some "05 dez") =
      .ok (if ((12 : ℕ) : ℤ) > 3 then 2024 - 1 else 2024) :=
  c3_theorem.1 2024 3 "05 dez" 12 (by decide)

/-- Claim C4, counterexample: `"Store (3/0)"` matches the `(N/M)`
pattern with N = 3, yet the date is left unchanged instead of being
shifted by N - 1 = 2 months, because `installment_total = 0`. -/
theorem c4_counterexample :
    findInst "Store (3/0)".toList = some (3, 0) ∧
    adjustForInstallment (some "Store (3/0)") (some ⟨2024, 1, 10⟩) =
      .ok (some ⟨2024, 1, 10⟩) ∧
    ¬ (⟨2024, 1, 10⟩ : Date) = addMonths ⟨2024, 1, 10⟩ ((3 : ℤ) - 1) := by decide

/-- Claim C4 (amended): a matched `(N/M)` pattern with M ≠ 0 shifts the
posting date forward by N - 1 calendar months (`"Store (3/6)"` with
2024-01-10 gives 2024-03-10); a description with no pattern, or with a
matched pattern whose M = 0, leaves the date unchanged. -/
theorem c4_amended_theorem :
    (∀ (desc : String) (d : Date) (n m : ℕ),
        findInst desc.toList = some (n, m) → ¬ m = 0 →
        adjustForInstallment (some desc) (some d) =
          .ok (some (addMonths d ((n : ℤ) - 1)))) ∧
    (∀ (desc : String) (d : Date), findInst desc.toList = none →
        adjustForInstallment (some desc) (some d) = .ok (some d)) ∧
    (∀ (desc : String) (d : Date) (n : ℕ), findInst desc.toList = some (n, 0) →
        adjustForInstallment (some desc) (some d) = .ok (some d)) ∧
    adjustForInstallment (some "Store (3/6)") (some ⟨2024, 1, 10⟩) =
      .ok (some ⟨2024, 3, 10⟩) := by
  refine ⟨?_, ?_, ?_, by decide⟩
  · intro desc d n m h hm
    rw [String.toList] at h
    simp [adjustForInstallment, h, hm]
  · intro desc d h
    rw [String.toList] at h
    simp [adjustForInstallment, h]
  · intro desc d n h
    rw [String.toList] at h
    simp [adjustForInstallment, h]

/-- Claim C4 witness: the amended theorem applied to `"Store (3/6)"`
and base date 2024-01-10. -/
theorem c4_witness :
    adjustForInstallment (some "Store (3/6)") (some ⟨2024, 1, 10⟩) =
      .ok (some (addMonths ⟨2024, 1, 10⟩ ((3 : ℤ) - 1))) :=
  c4_amended_theorem.1 "Store (3/6)" ⟨2024, 1, 10⟩ 3 6 (by decide) (by decide)

/-- Claim C5: for a retained investment row, the sign is +1 when the
Débito cell is empty and -1 otherwise, and with exactly one of Débito
and Crédito populated the amount is that cell parsed with `"."` removed
and `","` turned into `"."`, multiplied by the sign. -/
theorem c5_theorem :
    (∀ c : Option String, invSign ⟨none, c⟩ = 1) ∧
    (∀ (x : String) (c : Option String), invSign ⟨some x, c⟩ = -1) ∧
    (∀ (s : String) (q : ℚ),
        parseDecimal (replaceChar (replaceChar s '.' "") ',' ".") = some q →
        invAmount ⟨some s, none⟩ = .ok (some (-q))) ∧
    (∀ (s : String) (q : ℚ),
        parseDecimal (replaceChar (replaceChar s '.' "") ',' ".") = some q →
        invAmount ⟨none, some s⟩ = .ok (some q)) ∧
    invAmount ⟨none, some "1.234,56"⟩ = .ok (some (123456 / 100 : ℚ)) := by
  refine ⟨fun c => rfl, fun x c => rfl, ?_, ?_, ?_⟩
  · intro s q hq
    simp only [parseDecimal] at hq
    rcases hp : parseDecimalParts (replaceChar (replaceChar s '.' "") ',' ".") with _ | p
    · rw [hp] at hq
      cases hq
    · rw [hp, Option.map_some'] at hq
      have hv := Option.some.inj hq
      have hnan : ¬ replaceChar (replaceChar s '.' "") ',' "." = "nan" := by
        intro hn
        rw [hn] at hp
        have : parseDecimalParts "nan" = none := by decide
        rw [this] at hp
        cases hp
      have hval : invValorStr ⟨some s, none⟩ = replaceChar (replaceChar s '.' "") ',' "." := rfl
      unfold invAmount pyFloat
      rw [hval, if_neg hnan, hp]
      simp only [invSign, ← hv]
      norm_num
      rfl
  · intro s q hq
    simp only [parseDecimal] at hq
    rcases hp : parseDecimalParts (replaceChar (replaceChar s '.' "") ',' ".") with _ | p
    · rw [hp] at hq
      cases hq
    · rw [hp, Option.map_some'] at hq
      have hv := Option.some.inj hq
      have hnan : ¬ replaceChar (replaceChar s '.' "") ',' "." = "nan" := by
        intro hn
        rw [hn] at hp
        have : parseDecimalParts "nan" = none := by decide
        rw [this] at hp
        cases hp
      have hval : invValorStr ⟨none, some s⟩ = replaceChar (replaceChar s '.' "") ',' "." := rfl
      unfold invAmount pyFloat
      rw [hval, if_neg hnan, hp]
      simp only [invSign, ← hv]
      norm_num
      rfl
  · have h : invAmount ⟨none, some "1.234,56"⟩ =
        .ok (some (((1 : ℤ) : ℚ) * decValue (false, 123456, 2))) := rfl
    rw [h]
    norm_num [decValue]

/-- Claim C5 witness: the theorem applied to a row with only the Débito
cell populated, holding `"10,00"`. -/
theorem c5_witness :
    invAmount ⟨some "10,00", none⟩ = .ok (some (-(10 : ℚ))) := by
  have h : parseDecimal (replaceChar (replaceChar "10,00" '.' "") ',' ".") =
      some (decValue (false, 1000, 2)) := rfl
  have h10 : decValue (false, 1000, 2) = (10 : ℚ) := by norm_num [decValue]
  exact c5_theorem.2.2.1 "10,00" 10 (by rw [h, h10])

/-- Claim C6, counterexample: a row with BOTH Débito and Crédito
populated silently produces the amount `-Débito` instead of raising,
and a row with both empty silently produces a NaN amount; neither case
raises an error. -/
theorem c6_counterexample :
    invAmount ⟨some "10,00", some "5,00"⟩ = .ok (some (-(10 : ℚ))) ∧
    invAmount ⟨none, none⟩ = .ok none := by
  constructor
  · have h : invAmount ⟨some "10,00", some "5,00"⟩ =
        .ok (some (((-1 : ℤ) : ℚ) * decValue (false, 1000, 2))) := rfl
    rw [h]
    norm_num [decValue]
  · rfl

/-- Claim C6 (amended): the invariant is not checked; a row with both
Débito and Crédito populated yields a record whose amount is the parsed
Débito value negated, and a row with both empty yields a record whose
amount is NaN; no error is raised in either case. -/
theorem c6_amended_theorem :
    (∀ (s t : String) (q : ℚ),
        parseDecimal (replaceChar (replaceChar s '.' "") ',' ".") = some q →
        invAmount ⟨some s, some t⟩ = .ok (some (-q))) ∧
    invAmount ⟨none, none⟩ = .ok none := by
  constructor
  · intro s t q hq
    simp only [parseDecimal] at hq
    rcases hp : parseDecimalParts (replaceChar (replaceChar s '.' "") ',' ".") with _ | p
    · rw [hp] at hq
      cases hq
    · rw [hp, Option.map_some'] at hq
      have hv := Option.some.inj hq
      have hnan : ¬ replaceChar (replaceChar s '.' "") ',' "." = "nan" := by
        intro hn
        rw [hn] at hp
        have : parseDecimalParts "nan" = none := by decide
        rw [this] at hp
        cases hp
      have hval : invValorStr ⟨some s, some t⟩ = replaceChar (replaceChar s '.' "") ',' "." := rfl
      unfold invAmount pyFloat
      rw [hval, if_neg hnan, hp]
      simp only [invSign, ← hv]
      norm_num
      rfl
  · rfl

/-- Claim C6 witness: the amended theorem applied to a row with both
cells populated. -/
theorem c6_witness :
    invAmount ⟨some "10,00", some "5,00"⟩ = .ok (some (-(10 : ℚ))) := by
  have h : parseDecimal (replaceChar (replaceChar "10,00" '.' "") ',' ".") =
      some (decValue (false, 1000, 2)) := rfl
  have h10 : decValue (false, 1000, 2) = (10 : ℚ) := by norm_num [decValue]
  exact c6_amended_theorem.1 "10,00" "5,00" 10 (by rw [h, h10])

/-- Claim C8: with the file_password configuration absent, the
credit-card stream yields no records and raises nothing, whatever the
file list. -/
theorem c8_theorem :
    ∀ files : List CreditFile, creditGetRecords none files = ([], none) :=
  fun _ => rfl

/-- A run over files that each contribute no records and no error
yields no records and no error. -/
lemma runFiles_all_empty {α ρ : Type} (f : α → Except String (List ρ))
    (files : List α) (h : ∀ x ∈ files, f x = .ok []) :
    runFiles f files = ([], none) := by
  induction files with
  | nil => rfl
  | cons x xs ih =>
      simp only [runFiles, h x (List.mem_cons_self x xs),
        ih (fun y hy => h y (List.mem_cons_of_mem x hy))]
      rfl

/-- Claim C10: a file whose path does not end in `.pdf` contributes no
records and no error to the credit-card stream, a file whose path does
not end in `.xls` contributes no records and no error to the banking
stream, and a run over only such files yields nothing and raises
nothing. -/
theorem c10_theorem :
    (∀ f : CreditFile, strEndsWith f.path ".pdf" = false →
        processCreditFile f = .ok []) ∧
    (∀ g : BankingFile, strEndsWith g.path ".xls" = false →
        processBankingFile g = .ok []) ∧
    (∀ (p : String) (files : List CreditFile), ¬ p = "" →
        (∀ f ∈ files, strEndsWith f.path ".pdf" = false) →
        creditGetRecords (some p) files = ([], none)) ∧
    (∀ files : List BankingFile,
        (∀ f ∈ files, strEndsWith f.path ".xls" = false) →
        bankingGetRecords files = ([], none)) := by
  have hc : ∀ f : CreditFile, strEndsWith f.path ".pdf" = false →
      processCreditFile f = .ok [] := by
    intro f h
    simp [processCreditFile, h]
  have hb : ∀ g : BankingFile, strEndsWith g.path ".xls" = false →
      processBankingFile g = .ok [] := by
    intro g h
    simp [processBankingFile, h]
  refine ⟨hc, hb, ?_, ?_⟩
  · intro p files hp hall
    simp only [creditGetRecords, if_neg hp]
    exact runFiles_all_empty _ _ (fun f hf => hc f (hall f hf))
  · intro files hall
    exact runFiles_all_empty _ _ (fun f hf => hb f (hall f hf))

/-- Claim C10 witness: the theorem applied to a `.txt` file given to
the credit-card stream and a `.pdf` file given to the banking stream. -/
theorem c10_witness :
    processCreditFile ⟨"extrato.txt", [[]]⟩ = .ok [] ∧
    processBankingFile ⟨"extrato.pdf", []⟩ = .ok [] :=
  ⟨c10_theorem.1 ⟨"extrato.txt", [[]]⟩ (by decide),
   c10_theorem.2.1 ⟨"extrato.pdf", []⟩ (by decide)⟩

/-- Claim C9: a banking row with an empty Valor cell is dropped, a row
whose `Data e hora` cell repeats the header label is dropped, and every
surviving row yields exactly one record: the date parsed day-first, the
description `Categoria - Transação - Descrição`, and the amount cell
verbatim; the spec example sheet yields exactly its one record. -/
theorem c9_theorem :
    (∀ (r : BRow) (sheet : List BRow), r.valor = "" →
        processBankingSheet (r :: sheet) = processBankingSheet sheet) ∧
    (∀ (r : BRow) (sheet : List BRow), r.dataHora = "Data e hora" →
        processBankingSheet (r :: sheet) = processBankingSheet sheet) ∧
    (∀ (r : BRow) (sheet : List BRow) (d : Option Date), ¬ r.valor = "" →
        ¬ r.dataHora = "Data e hora" →
        parseDayFirst (emptyToNone r.dataHora) = .ok d →
        processBankingSheet (r :: sheet) =
          (processBankingSheet sheet).map
            (fun rs =>
              ⟨d, bankDescription (emptyToNone r.categoria) (emptyToNone r.transacao)
                  (emptyToNone r.descricao), emptyToNone r.valor⟩ :: rs)) ∧
    processBankingSheet
        [⟨"01/02/2024", "Pix", "Transfer", "To Someone", "100.00"⟩,
         ⟨"Data e hora", "Categoria", "Transação", "Descrição", "Valor"⟩] =
      .ok [⟨some ⟨2024, 2, 1⟩, some "Pix - Transfer - To Someone", some "100.00"⟩] := by
  refine ⟨?_, ?_, ?_, by decide⟩
  · intro r sheet hv
    have h0 : (bankReplaceEmpty r).valor = none := by
      simp [bankReplaceEmpty, emptyToNone, hv]
    simp only [processBankingSheet, List.map_cons]
    rw [List.filter_cons_of_neg (by simp [h0])]
  · intro r sheet hh
    by_cases hv : r.valor = ""
    · have h0 : (bankReplaceEmpty r).valor = none := by
        simp [bankReplaceEmpty, emptyToNone, hv]
      simp only [processBankingSheet, List.map_cons]
      rw [List.filter_cons_of_neg (by simp [h0])]
    · have h1 : (bankReplaceEmpty r).valor = some r.valor := by
        simp [bankReplaceEmpty, emptyToNone, hv]
      have h2 : (bankReplaceEmpty r).dataHora = some "Data e hora" := by
        simp [bankReplaceEmpty, emptyToNone, hh]
      simp only [processBankingSheet, List.map_cons]
      rw [List.filter_cons_of_pos (by simp [h1]), List.filter_cons_of_neg (by simp [h2])]
  · intro r sheet d hv hh hd
    have h1 : (bankReplaceEmpty r).valor = some r.valor := by
      simp [bankReplaceEmpty, emptyToNone, hv]
    have h2 : ¬ (bankReplaceEmpty r).dataHora = some "Data e hora" := by
      simp only [bankReplaceEmpty, emptyToNone]
      split
      · intro hc
        cases hc
      · intro hc
        exact hh (Option.some.inj hc)
    have h3 : (bankReplaceEmpty r).dataHora = emptyToNone r.dataHora := rfl
    simp only [processBankingSheet, List.map_cons]
    rw [List.filter_cons_of_pos (by simp [h1]), List.filter_cons_of_pos (by simp [h2])]
    simp only [List.mapM_cons, h3, hd, h1]
    rcases hM : List.mapM _ (List.filter _ (List.filter _ (sheet.map bankReplaceEmpty)))
      with e | ys
    · simp [Except.map, hM, bind, Except.bind]
    · have h4 : emptyToNone r.valor = some r.valor := by simp [emptyToNone, hv]
      simp [Except.map, hM, bind, Except.bind, bankReplaceEmpty, h4, pure, Except.pure]

/-- Claim C9 witness: the per-row clause applied to the spec example
row over the empty remainder of the sheet. -/
theorem c9_witness :
    processBankingSheet [⟨"01/02/2024", "Pix", "Transfer", "To Someone", "100.00"⟩] =
      (processBankingSheet []).map
        (fun rs =>
          ⟨some ⟨2024, 2, 1⟩, bankDescription (emptyToNone "Pix") (emptyToNone "Transfer")
              (emptyToNone "To Someone"), emptyToNone "100.00"⟩ :: rs) :=
  c9_theorem.2.2.1 ⟨"01/02/2024", "Pix", "Transfer", "To Someone", "100.00"⟩ []
    (some ⟨2024, 2, 1⟩) (by decide) (by decide) (by decide)

/-! ### Lemmas about labeled-frame operations, for the US$ loop -/

lemma labelMem_iff {df : LFrame} {l : ℕ} :
    labelMem df l = true ↔ ∃ p ∈ df, p.1 = l := by
  induction df with
  | nil => simp [labelMem]
  | cons p df ih => by_cases hp : p.1 = l <;> simp [labelMem, hp, ih]

lemma locGetRow_isSome {df : LFrame} {l : ℕ} (h : labelMem df l = true) :
    ∃ r, locGetRow df l = some r := by
  induction df with
  | nil => simp [labelMem] at h
  | cons p df ih =>
      by_cases hp : p.1 = l
      · exact ⟨p.2, by simp [locGetRow, hp]⟩
      · simp only [labelMem, hp] at h
        obtain ⟨r, hr⟩ := ih (by simpa using h)
        exact ⟨r, by simp [locGetRow, hp, hr]⟩

lemma labelMem_map_set (df : LFrame) (i : ℕ) (v : Option String) (l : ℕ) :
    labelMem (df.map (fun p => if p.1 = i then (p.1, { p.2 with amount := v }) else p)) l =
      labelMem df l := by
  induction df with
  | nil => rfl
  | cons p df ih => by_cases hpi : p.1 = i <;> simp [labelMem, hpi, ih]

lemma labelMem_set (df : LFrame) (i : ℕ) (v : Option String)
    (hmem : labelMem df i = true) (l : ℕ) :
    labelMem (locSetAmount df i v) l = labelMem df l := by
  simp only [locSetAmount, hmem, if_true]
  exact labelMem_map_set df i v l

lemma locGetRow_map_set_self (df : LFrame) (i : ℕ) (v : Option String) :
    locGetRow (df.map (fun p => if p.1 = i then (p.1, { p.2 with amount := v }) else p)) i =
      (locGetRow df i).map (fun r => { r with amount := v }) := by
  induction df with
  | nil => rfl
  | cons p df ih =>
      by_cases hp : p.1 = i
      · simp [locGetRow, hp]
      · simp [locGetRow, hp, ih]

lemma locGetRow_set_self (df : LFrame) (i : ℕ) (v : Option String)
    (hmem : labelMem df i = true) :
    locGetRow (locSetAmount df i v) i =
      (locGetRow df i).map (fun r => { r with amount := v }) := by
  simp only [locSetAmount, hmem, if_true]
  exact locGetRow_map_set_self df i v

lemma locGetRow_map_set_ne (df : LFrame) (i l : ℕ) (v : Option String) (hne : ¬ l = i) :
    locGetRow (df.map (fun p => if p.1 = i then (p.1, { p.2 with amount := v }) else p)) l =
      locGetRow df l := by
  induction df with
  | nil => rfl
  | cons p df ih =>
      by_cases hpi : p.1 = i
      · have hpl : ¬ p.1 = l := fun he => hne (by rw [← he]; exact hpi)
        have hil : ¬ i = l := fun he => hne he.symm
        simp [locGetRow, hpi, hpl, hil, ih]
      · by_cases hpl : p.1 = l
        · simp [locGetRow, hpi, hpl, hne]
        · simp [locGetRow, hpi, hpl, ih]

lemma locGetRow_append_single_ne (df : LFrame) (i l : ℕ) (r : CRow) (hne : ¬ i = l) :
    locGetRow (df ++ [(i, r)]) l = locGetRow df l := by
  induction df with
  | nil => simp [locGetRow, hne]
  | cons p df ih => by_cases hp : p.1 = l <;> simp [locGetRow, hp, ih]

lemma locGetRow_set_ne (df : LFrame) (i l : ℕ) (v : Option String) (hne : ¬ l = i) :
    locGetRow (locSetAmount df i v) l = locGetRow df l := by
  by_cases hmem : labelMem df i = true
  · simp only [locSetAmount, hmem, if_true]
    exact locGetRow_map_set_ne df i l v hne
  · simp only [locSetAmount, hmem, if_false]
    exact locGetRow_append_single_ne df i l _ (fun he => hne he.symm)

lemma labelMem_remove_of_mem (df : LFrame) (ls : List ℕ) (l : ℕ) (h : l ∈ ls) :
    labelMem (removeLabels df ls) l = false := by
  induction df with
  | nil => rfl
  | cons p df ih =>
      by_cases hp : p.1 ∈ ls
      · simpa [removeLabels, List.filter_cons, hp] using ih
      · have hne : ¬ p.1 = l := fun he => hp (he ▸ h)
        simp only [removeLabels, List.filter_cons] at ih ⊢
        rw [if_pos (by simpa using hp)]
        simpa [labelMem, hne] using ih

lemma labelMem_remove_ne (df : LFrame) (ls : List ℕ) (l : ℕ) (h : ¬ l ∈ ls) :
    labelMem (removeLabels df ls) l = labelMem df l := by
  induction df with
  | nil => rfl
  | cons p df ih =>
      by_cases hp : p.1 ∈ ls
      · have hne : ¬ p.1 = l := fun he => h (he ▸ hp)
        simp only [removeLabels, List.filter_cons] at ih ⊢
        rw [if_neg (by simpa using hp)]
        simpa [labelMem, hne] using ih
      · simp only [removeLabels, List.filter_cons] at ih ⊢
        rw [if_pos (by simpa using hp)]
        simp only [labelMem] at ih ⊢
        rw [ih]

lemma labelMem_of_remove (df : LFrame) (ls : List ℕ) (l : ℕ)
    (h : labelMem (removeLabels df ls) l = true) : labelMem df l = true := by
  rcases labelMem_iff.mp h with ⟨p, hp, hpl⟩
  exact labelMem_iff.mpr ⟨p, List.mem_of_mem_filter hp, hpl⟩

lemma locGetRow_remove_ne (df : LFrame) (ls : List ℕ) (l : ℕ) (h : ¬ l ∈ ls) :
    locGetRow (removeLabels df ls) l = locGetRow df l := by
  induction df with
  | nil => rfl
  | cons p df ih =>
      by_cases hp : p.1 ∈ ls
      · have hne : ¬ p.1 = l := fun he => h (he ▸ hp)
        simp only [removeLabels, List.filter_cons] at ih ⊢
        rw [if_neg (by simpa using hp)]
        rw [locGetRow, if_neg hne]
        exact ih
      · simp only [removeLabels, List.filter_cons] at ih ⊢
        rw [if_pos (by simpa using hp)]
        by_cases hpl : p.1 = l
        · simp [locGetRow, hpl]
        · rw [locGetRow, if_neg hpl, locGetRow, if_neg hpl]
          exact ih

/-- Effect of the US$ loop on a frame whose matched labels sit at least
three apart and have their two follower labels present: each matched
label keeps its row with the amount copied from label i+2, labels i+1
and i+2 are dropped, rows away from every matched triplet are
untouched, and no new labels appear. -/
lemma usdFold_spec :
    ∀ (is : List ℕ) (df : LFrame),
      List.Pairwise (fun a b => a + 3 ≤ b) is →
      (∀ j ∈ is, labelMem df j = true ∧ labelMem df (j + 1) = true ∧
        labelMem df (j + 2) = true) →
      ∃ df', List.foldlM usdStep df is = .ok df' ∧
        (∀ i ∈ is, ∃ r r2, locGetRow df i = some r ∧ locGetRow df (i + 2) = some r2 ∧
          locGetRow df' i = some { r with amount := r2.amount } ∧
          labelMem df' (i + 1) = false ∧ labelMem df' (i + 2) = false) ∧
        (∀ l, (∀ j ∈ is, ¬ l = j ∧ ¬ l = j + 1 ∧ ¬ l = j + 2) →
          locGetRow df' l = locGetRow df l) ∧
        (∀ l, labelMem df' l = true → labelMem df l = true) := by
  intro is
  induction is with
  | nil =>
      intro df _ _
      exact ⟨df, rfl, by simp, fun l _ => rfl, fun l h => h⟩
  | cons i is ih =>
      intro df hpw hm
      obtain ⟨hmi, hmi1, hmi2⟩ := hm i (List.mem_cons_self i is)
      have hsep : ∀ j ∈ is, i + 3 ≤ j := (List.pairwise_cons.mp hpw).1
      have hpw' := (List.pairwise_cons.mp hpw).2
      obtain ⟨r, hr⟩ := locGetRow_isSome hmi
      obtain ⟨r2, hr2⟩ := locGetRow_isSome hmi2
      have hm1 : ∀ l, labelMem (locSetAmount df i r2.amount) l = labelMem df l :=
        labelMem_set df i r2.amount hmi
      have hdrop : dropLabels (locSetAmount df i r2.amount) [i + 1, i + 2] =
          .ok (removeLabels (locSetAmount df i r2.amount) [i + 1, i + 2]) := by
        rw [dropLabels, if_pos]
        simp [List.all, hm1, hmi1, hmi2]
      have hstep : usdStep df i = .ok (removeLabels (locSetAmount df i r2.amount) [i + 1, i + 2]) := by
        rw [usdStep, hr2]
        exact hdrop
      set df2 := removeLabels (locSetAmount df i r2.amount) [i + 1, i + 2] with hdf2
      have hm2of : ∀ l, labelMem df2 l = true → labelMem df l = true := by
        intro l h
        exact (hm1 l) ▸ labelMem_of_remove _ _ l h
      have hm2ne : ∀ l, ¬ l ∈ [i + 1, i + 2] → labelMem df2 l = labelMem df l := by
        intro l hl
        rw [hdf2, labelMem_remove_ne _ _ l hl, hm1]
      have hget2ne : ∀ l, ¬ l ∈ [i + 1, i + 2] → ¬ l = i → locGetRow df2 l = locGetRow df l := by
        intro l hl hli
        rw [hdf2, locGetRow_remove_ne _ _ l hl, locGetRow_set_ne df i l r2.amount hli]
      have hm' : ∀ j ∈ is, labelMem df2 j = true ∧ labelMem df2 (j + 1) = true ∧
          labelMem df2 (j + 2) = true := by
        intro j hj
        have h3 := hsep j hj
        obtain ⟨a, b, c⟩ := hm j (List.mem_cons_of_mem i hj)
        refine ⟨?_, ?_, ?_⟩ <;> rw [hm2ne _ (by simp; omega)] <;> assumption
      obtain ⟨df', hfold, hmain, hframe, hmono⟩ := ih df2 hpw' hm'
      refine ⟨df', ?_, ?_, ?_, ?_⟩
      · simp only [List.foldlM_cons, hstep]
        exact hfold
      · intro i0 hi0
        rcases List.mem_cons.mp hi0 with rfl | hi0'
        · refine ⟨r, r2, hr, hr2, ?_, ?_, ?_⟩
          · rw [hframe _ (fun j hj => by have := hsep j hj; omega)]
            rw [hdf2, locGetRow_remove_ne _ _ _ (by simp),
              locGetRow_set_self df i0 r2.amount hmi, hr]
            rfl
          · have h2 : labelMem df2 (i0 + 1) = false := by
              rw [hdf2]
              exact labelMem_remove_of_mem _ _ _ (by simp)
            cases hval : labelMem df' (i0 + 1) with
            | false => rfl
            | true =>
                have := hmono _ hval
                rw [h2] at this
                cases this
          · have h2 : labelMem df2 (i0 + 2) = false := by
              rw [hdf2]
              exact labelMem_remove_of_mem _ _ _ (by simp)
            cases hval : labelMem df' (i0 + 2) with
            | false => rfl
            | true =>
                have := hmono _ hval
                rw [h2] at this
                cases this
        · obtain ⟨r', r2', ha, hb, hc, hd1, hd2⟩ := hmain i0 hi0'
          have h3 := hsep i0 hi0'
          refine ⟨r', r2', ?_, ?_, hc, hd1, hd2⟩
          · rw [← hget2ne i0 (by simp; omega) (by omega)]
            exact ha
          · rw [← hget2ne (i0 + 2) (by simp; omega) (by omega)]
            exact hb
      · intro l hl
        obtain ⟨e1, e2, e3⟩ := hl i (List.mem_cons_self i is)
        rw [hframe l (fun j hj => hl j (List.mem_cons_of_mem i hj))]
        exact hget2ne l (by simp; omega) e1
      · intro l h
        exact hm2of l (hmono l h)

/-- Claim C2: in a stacked frame with no NaN amounts whose US$-matched
labels each have their two follower rows present (non-matching) and sit
at least three apart - the triplet layout the repair assumes - the US$
loop succeeds, every matched row keeps its date and description but
takes the amount found at label i+2, and labels i+1 and i+2 are absent
from the result; on the example triplet the surviving row carries
`"R$ 250,00"`, which sign normalization sends to `-250.00`. -/
theorem c2_theorem :
    (∀ df : LFrame,
        (∀ p ∈ df, (Prod.snd p : CRow).amount.isSome = true) →
        List.Pairwise (fun a b => a + 3 ≤ b) (usdLabels df) →
        (∀ j ∈ usdLabels df, labelMem df (j + 1) = true ∧ labelMem df (j + 2) = true) →
        ∀ i ∈ usdLabels df,
          ∃ df' r r2, usdRepair df = .ok df' ∧
            locGetRow df i = some r ∧ locGetRow df (i + 2) = some r2 ∧
            locGetRow df' i = some { r with amount := r2.amount } ∧
            labelMem df' (i + 1) = false ∧ labelMem df' (i + 2) = false) ∧
    usdRepair exTriplet = .ok [(0, ⟨some "05 jan", some "Shop", some "R$ 250,00"⟩)] ∧
    creditAmountToNumeric "R$ 250,00" = some (-(250 : ℚ)) := by
  refine ⟨?_, by decide, ?_⟩
  · intro df hNaN hpw hm i hi
    have hmem : ∀ j ∈ usdLabels df, labelMem df j = true := by
      intro j hj
      simp only [usdLabels, List.mem_map] at hj
      obtain ⟨p, hp, rfl⟩ := hj
      exact labelMem_iff.mpr ⟨p, List.mem_of_mem_filter hp, rfl⟩
    have hnoNaN : df.any (fun p => p.2.amount.isNone) = false := by
      cases hval : df.any (fun p => p.2.amount.isNone) with
      | false => rfl
      | true =>
          obtain ⟨p, hp, hn⟩ := List.any_eq_true.mp hval
          have hs := hNaN p hp
          rw [Option.isNone_iff_eq_none] at hn
          rw [hn] at hs
          simp at hs
    obtain ⟨df', hfold, hmain, _, _⟩ := usdFold_spec (usdLabels df) df hpw
      (fun j hj => ⟨hmem j hj, (hm j hj).1, (hm j hj).2⟩)
    obtain ⟨r, r2, h1, h2, h3, h4, h5⟩ := hmain i hi
    refine ⟨df', r, r2, ?_, h1, h2, h3, h4, h5⟩
    rw [usdRepair, if_neg (by rw [hnoNaN]; exact Bool.false_ne_true)]
    exact hfold
  · have h : creditAmountToNumeric "R$ 250,00" = some (decValue (true, 25000, 2)) := rfl
    rw [h]
    norm_num [decValue]

/-- Claim C2 witness: the theorem applied to the example triplet frame
at label 0. -/
theorem c2_witness :
    ∃ df' r r2, usdRepair exTriplet = .ok df' ∧
      locGetRow exTriplet 0 = some r ∧ locGetRow exTriplet (0 + 2) = some r2 ∧
      locGetRow df' 0 = some { r with amount := r2.amount } ∧
      labelMem df' (0 + 1) = false ∧ labelMem df' (0 + 2) = false :=
  c2_theorem.1 exTriplet (by decide) (by decide) (by decide) 0 (by decide)

/-- Generator semantics around a failing file: each file before it
contributes its records, then the failure aborts the generator, so the
failing file and every later file contribute nothing. -/
lemma runFiles_stops_at_error {α ρ : Type} (f : α → Except String (List ρ)) :
    ∀ (xs : List α) (bad : α) (ys : List α) (e : String),
      (∀ x ∈ xs, ((f x).toOption.isSome : Bool) = true) → f bad = .error e →
      runFiles f (xs ++ bad :: ys) =
        ((xs.map (fun x => (f x).toOption.getD [])).flatten, some e) := by
  intro xs
  induction xs with
  | nil =>
      intro bad ys e _ hbad
      simp [runFiles, hbad]
  | cons x xs ih =>
      intro bad ys e hok hbad
      have hx := hok x (List.mem_cons_self x xs)
      rcases hfx : f x with e2 | rs
      · rw [hfx] at hx
        simp [Except.toOption] at hx
      · simp only [List.cons_append, runFiles, hfx, List.append_eq]
        rw [ih bad ys e (fun y hy => hok y (List.mem_cons_of_mem x hy)) hbad]
        simp [hfx, Except.toOption]

/-- Claim C7, counterexample: with a malformed-name credit-card file
followed by a well-formed one in the same run, the stream yields NO
records at all - the IndexError raised for the first file aborts the
whole generator - even though the second file alone yields one record. -/
theorem c7_counterexample :
    creditGetRecords (some "pw") [exBadCredit, exGoodCredit] = ([], some "IndexError") ∧
    processCreditFile exGoodCredit =
      .ok [⟨some ⟨2024, 2, 10⟩, some "Store", some (decValue (true, 1000, 2)),
        ⟨2024, 3, 1⟩⟩] := by
  constructor
  · decide
  · rfl

/-- Claim C7 (amended): a failure on one file aborts that file and every
file after it in the same run; only the files processed before the
failing one still contribute their records, and the error surfaces. -/
theorem c7_amended_theorem (p : String) (xs : List CreditFile) (bad : CreditFile)
    (ys : List CreditFile) (e : String) (hp : ¬ p = "")
    (hxs : ∀ x ∈ xs, ((processCreditFile x).toOption.isSome : Bool) = true)
    (hbad : processCreditFile bad = .error e) :
    creditGetRecords (some p) (xs ++ bad :: ys) =
      ((xs.map (fun x => (processCreditFile x).toOption.getD [])).flatten, some e) := by
  simp only [creditGetRecords, if_neg hp]
  exact runFiles_stops_at_error processCreditFile xs bad ys e hxs hbad

/-- Claim C7 witness: the amended theorem applied to a good file
followed by the malformed-name file. -/
theorem c7_witness :
    creditGetRecords (some "pw") [exGoodCredit, exBadCredit] =
      (([exGoodCredit].map (fun x => (processCreditFile x).toOption.getD [])).flatten,
        some "IndexError") :=
  c7_amended_theorem "pw" [exGoodCredit] exBadCredit [] "IndexError" (by decide)
    (by intro x hx
        rw [List.mem_singleton.mp hx]
        decide)
    (by decide)

end TapBtg
